import Mathlib

/-
Verification development for the utilities-dashboard repository.

The repository ships a Next.js presentation layer together with interface
documentation (backend/TESTING.md, README) for a FastAPI/TimescaleDB core.
The core itself (ingestion orchestrator, time-series store access layer,
aggregation engine, forecast reconciler) is not present in the source tree;
its behaviour is modelled here from the specification, while the frontend
chart components are embedded directly from their TypeScript sources.

Numeric values are modelled as rationals, timestamps as integers counting
minutes since an epoch in UTC.
-/

namespace Core

/-- Stable insertion step: `a` is placed before the first element `x` for
which `lt x a` is false, so elements comparing equal keep their original
relative order (this mirrors a stable ORDER BY / Array.prototype.sort). -/
def insertOrd {α : Type} (lt : α → α → Bool) (a : α) : List α → List α
  | [] => [a]
  | x :: xs => if lt x a then x :: insertOrd lt a xs else a :: x :: xs

/-- Stable sort by the strict comparison `lt`. -/
def sortOrd {α : Type} (lt : α → α → Bool) (l : List α) : List α :=
  l.foldr (insertOrd lt) []

/-- Fact types of the canonical time-series store (spec section 3). -/
inductive FactType
  | price
  | load
  | fuelMix
  | interfaceFlow
  | weather
deriving DecidableEq, Repr

/-- Aggregation functions of the query surface (spec section 4.4). -/
inductive AggFunc
  | sum
  | avg
  | last
deriving DecidableEq, Repr

/-- Requested resolution of the query surface (spec section 4.4). -/
inductive Interval
  | raw
  | min15
  | hourly
  | daily
deriving DecidableEq, Repr

/-- Modelled from the spec: a canonical time-series record as stored by the
missing backend core.  `key` is the series key resolved by the filters (zone
code, fuel type, region code or interface id); `ts` is minutes since epoch,
UTC; the natural key of a row is `(fact, key, ts)`. -/
structure RawRecord where
  fact : FactType
  key : String
  ts : Int
  value : ℚ
deriving DecidableEq, Repr

/-- Natural key of a stored row. -/
def rowKey (r : RawRecord) : FactType × String × Int := (r.fact, r.key, r.ts)

/-- Floor an instant to the start of its containing bucket of width `m`. -/
def floorTo (t : Int) (m : Int) : Int := t - t % m

/-- Modelled from the spec: bucketing rule of the missing Aggregation
Engine.  15-minute and hourly buckets are UTC aligned; daily buckets respect
the zone/region local calendar day, expressed by the offset `tz` in minutes
between local time and UTC. -/
def bucketStart (iv : Interval) (tz : Int) (t : Int) : Int :=
  match iv with
  | .raw => t
  | .min15 => floorTo t 15
  | .hourly => floorTo t 60
  | .daily => floorTo (t + tz) 1440 - tz

/-- Modelled from the spec: compatibility of an aggregation function with a
fact type; `sum` over a price-like quantity is rejected. -/
def compatible (ft : FactType) (f : AggFunc) : Bool :=
  match ft, f with
  | .price, .sum => false
  | .load, .sum => false
  | _, _ => true

/-- Modelled from the spec: the default aggregation function per fact type,
`avg` for price and load, `sum` for generation totals, `last` for
point-in-time weather metrics. -/
def defaultAgg (ft : FactType) : AggFunc :=
  match ft with
  | .price => .avg
  | .load => .avg
  | .fuelMix => .sum
  | .interfaceFlow => .avg
  | .weather => .last

/-- Modelled from the spec: an aggregation query.  `keys = none` places no
series-key filter; the time range is the half-open window `[lo, hi)`. -/
structure Query where
  fact : FactType
  keys : Option (List String)
  lo : Int
  hi : Int
  interval : Interval
  aggFunc : Option AggFunc
  tz : Int
deriving DecidableEq, Repr

/-- Record filter of the scan underlying a query. -/
def matchesQ (q : Query) (r : RawRecord) : Bool :=
  r.fact == q.fact && decide (q.lo ≤ r.ts) && decide (r.ts < q.hi) &&
    (match q.keys with
     | none => true
     | some ks => ks.contains r.key)

/-- Modelled from the spec: the store scan, an ordered sequence of matching
records ascending by timestamp. -/
def scan (store : List RawRecord) (q : Query) : List RawRecord :=
  sortOrd (fun a b => decide (a.ts < b.ts)) (store.filter (matchesQ q))

/-- Combine the values that fell into one bucket with a given function. -/
def applyAgg (f : AggFunc) (vals : List ℚ) : ℚ :=
  match f with
  | .sum => vals.sum
  | .avg => vals.sum / vals.length
  | .last => vals.getLast?.getD 0

/-- Modelled from the spec: resample one series into buckets of the
requested interval; buckets that contain no record are never created. -/
def bucketize (iv : Interval) (tz : Int) (f : AggFunc) (recs : List RawRecord) :
    List (Int × ℚ) :=
  ((recs.map fun r => bucketStart iv tz r.ts).dedup).map fun b =>
    (b, applyAgg f ((recs.filter fun r => bucketStart iv tz r.ts == b).map (·.value)))

/-- Error channel of the query surface. -/
inductive QueryError
  | validationError
deriving DecidableEq, Repr

/-- Modelled from the spec: the missing Aggregation Engine.  The requested
function (or the fact-type default) is validated first; the scan result is
grouped by series key and each group is resampled into buckets, giving one
ordered sequence per series key. -/
def aggregate (store : List RawRecord) (q : Query) :
    Except QueryError (List (String × List (Int × ℚ))) :=
  let f := q.aggFunc.getD (defaultAgg q.fact)
  if compatible q.fact f then
    let recs := scan store q
    .ok (((recs.map (·.key)).dedup).map fun k =>
      (k, bucketize q.interval q.tz f (recs.filter fun r => r.key == k)))
  else
    .error .validationError

/-- Modelled from the spec: upsert of a single record into the missing
Time-Series Store access layer.  If a row with the same natural key exists
it is replaced in place (last-write-wins on value fields); otherwise the
record is appended. -/
def upsertOne (s : List RawRecord) (r : RawRecord) : List RawRecord :=
  if s.any (fun x => rowKey x = rowKey r) then
    s.map fun x => if rowKey x = rowKey r then r else x
  else
    s ++ [r]

/-- Modelled from the spec: batched upsert, applied record by record in
batch order so that within a batch the last write for a natural key wins. -/
def upsertBatch (s : List RawRecord) (b : List RawRecord) : List RawRecord :=
  b.foldl upsertOne s

/-- Stored row found for a natural key, if any. -/
def lookupRow (s : List RawRecord) (k : FactType × String × Int) :
    Option RawRecord :=
  s.find? fun x => rowKey x = k

/-- Last record of a batch carrying a given natural key, if any; this is
the value that last-write-wins semantics must leave in the store. -/
def lastWrite : List RawRecord → FactType × String × Int → Option RawRecord
  | [], _ => none
  | r :: rs, k =>
      (lastWrite rs k).orElse fun _ => if rowKey r = k then some r else none

/-- Stage at which an ingestion cycle can fail (spec sections 4.2 and 7). -/
inductive StageError
  | fetchError
  | normalizeError
  | storeError
deriving DecidableEq, Repr

/-- Modelled from the spec: per-entity-type persisted watermark state of the
missing Ingestion Orchestrator. -/
structure OrchState where
  watermark : FactType → Int

/-- Modelled from the spec: one ingestion tick for one entity type.  The
fetch window is `[watermark − overlap, now]`; `outcome` is the combined
result of fetch, normalize and store for that window.  On success the
batch is committed and the watermark advances to the window end `now`; on
any failure both the store and the watermark are left unchanged. -/
def tick (st : OrchState) (store : List RawRecord) (et : FactType) (now : Int)
    (outcome : Except StageError (List RawRecord)) :
    OrchState × List RawRecord :=
  match outcome with
  | .ok batch =>
      (⟨fun e => if e = et then now else st.watermark e⟩, upsertBatch store batch)
  | .error _ => (st, store)

/-- Run a sequence of ticks for one entity type; each list entry is the
tick time together with that tick's outcome. -/
def runTicks (st : OrchState) (store : List RawRecord) (et : FactType)
    (ticks : List (Int × Except StageError (List RawRecord))) :
    OrchState × List RawRecord :=
  ticks.foldl (fun acc t => tick acc.1 acc.2 et t.1 t.2) (st, store)

/-- Modelled from the spec: a weather fact row of the missing core; forecast
and actual rows for the same instant coexist as distinct rows. -/
structure WeatherRow where
  region : String
  ts : Int
  isForecast : Bool
  temp : ℚ
deriving DecidableEq, Repr

/-- Paired hour of the reconciliation result: the hourly bucket, the
forecast value for it, and the realized actual if one was ingested. -/
structure HourPair where
  hour : Int
  forecast : ℚ
  actual : Option ℚ
deriving DecidableEq, Repr

/-- Modelled from the spec: result shape of the Forecast Reconciler; the
no-forecast and partial-coverage cases are structured results, not
exceptions. -/
inductive CompareResult
  | noForecastData
  | ok (pairs : List HourPair) (isPartial : Bool) (meanAbsError : ℚ)
deriving DecidableEq, Repr

/-- Membership of an instant in the local calendar day starting at
`dayStart` (minutes, UTC instant of the region's local midnight). -/
def inLocalDay (dayStart t : Int) : Bool :=
  decide (dayStart ≤ t) && decide (t < dayStart + 1440)

/-- Forecast rows of a region whose target timestamp falls in the day. -/
def forecastRowsFor (rows : List WeatherRow) (region : String) (dayStart : Int) :
    List WeatherRow :=
  rows.filter fun r => r.isForecast && r.region == region && inLocalDay dayStart r.ts

/-- Actual rows of a region whose timestamp falls in the day. -/
def actualRowsFor (rows : List WeatherRow) (region : String) (dayStart : Int) :
    List WeatherRow :=
  rows.filter fun r => !r.isForecast && r.region == region && inLocalDay dayStart r.ts

/-- Hour pairs produced for a region's day: one per forecast row, holding
the hourly bucket, the forecast value and the matching actual if any. -/
def pairsFor (rows : List WeatherRow) (region : String) (dayStart : Int) :
    List HourPair :=
  (forecastRowsFor rows region dayStart).map fun f =>
    { hour := floorTo f.ts 60
      forecast := f.temp
      actual := ((actualRowsFor rows region dayStart).find? fun a =>
        floorTo a.ts 60 == floorTo f.ts 60).map (·.temp) }

/-- Mean absolute error over the matched hour pairs only. -/
def maeFor (rows : List WeatherRow) (region : String) (dayStart : Int) : ℚ :=
  ((((pairsFor rows region dayStart).filter fun p => p.actual.isSome).map
    fun p => |p.forecast - p.actual.getD (0 : ℚ)|).sum : ℚ) /
  ((((pairsFor rows region dayStart).filter fun p => p.actual.isSome).length : ℚ))

/-- Modelled from the spec: the missing Forecast Reconciler.  Forecast rows
for the region's local day are paired with actuals by exact hourly bucket;
unmatched forecast hours keep a `none` actual and are excluded from the
mean absolute error, whose denominator is the matched-pair count only. -/
def compareDay (rows : List WeatherRow) (region : String) (dayStart : Int) :
    CompareResult :=
  let fc := forecastRowsFor rows region dayStart
  let ac := actualRowsFor rows region dayStart
  if fc.isEmpty then
    .noForecastData
  else
    let pairs := fc.map fun f =>
      { hour := floorTo f.ts 60
        forecast := f.temp
        actual := (ac.find? fun a => floorTo a.ts 60 == floorTo f.ts 60).map (·.temp) }
    let matched := pairs.filter fun p => p.actual.isSome
    let mae : ℚ :=
      ((matched.map fun p => |p.forecast - p.actual.getD (0 : ℚ)|).sum : ℚ) /
        (matched.length : ℚ)
    .ok pairs (pairs.any fun p => p.actual == none) mae

end Core

namespace Frontend

/-
Embeddings of the TypeScript chart components.  `Math.random()` is modelled
as an oracle `rand : Nat → ℚ` indexed by draw order, and `new Date()` by an
explicit instant parameter (`today` is the local midnight used by
`setHours(i, 0, 0, 0)`, in minutes; `now` is the current instant).
-/

/-- Row shape of the PriceChart data prop. -/
structure PricePoint where
  timestamp : Int
  price : ℚ
  zone : String
deriving DecidableEq, Repr

/-- Embeds the `sampleData` computation of `PriceChart`: the data prop when
non-empty, otherwise 24 generated hourly points whose price is
`Math.random() * 50 + 20`. -/
def priceChartSampleData (data : List PricePoint) (today : Int) (rand : Nat → ℚ) :
    List PricePoint :=
  if data.length > 0 then data
  else
    (List.range 24).map fun (i : ℕ) =>
      { timestamp := today + 60 * (i : Int), price := rand i * 50 + 20, zone := "SAMPLE" }

/-- Row shape of the LoadChart data prop. -/
structure LoadPoint where
  timestamp : Int
  load_mw : ℚ
  losses_mw : ℚ
  zone : String
deriving DecidableEq, Repr

/-- Embeds the `sampleData` computation of `LoadChart`: the data prop when
non-empty, otherwise a 24-hour load curve peaking at hour 16 with
`Math.random()` noise on load and losses (draws `2*i` and `2*i+1`). -/
def loadChartSampleData (data : List LoadPoint) (today : Int) (rand : Nat → ℚ) :
    List LoadPoint :=
  if data.length > 0 then data
  else
    (List.range 24).map fun (i : ℕ) =>
      let peakOffset : ℚ := |(i : ℚ) - 16|
      let peakFactor : ℚ := max 0 (8000 - peakOffset * 900)
      let load : ℚ := 15000 + peakFactor + rand (2 * i) * 300
      { timestamp := today + 60 * (i : Int)
        load_mw := load
        losses_mw := load * 0.03 + rand (2 * i + 1) * 50
        zone := "SAMPLE" }

/-- Row shape of the LoadVsPriceChart data prop. -/
structure LoadPricePoint where
  load_mw : ℚ
  price : ℚ
  timestamp : Int
  zone : String
deriving DecidableEq, Repr

/-- Embeds the `sampleData` computation of `LoadVsPriceChart`: the data prop
when non-empty, otherwise 24 generated points whose load and price both
carry `Math.random()` terms (draws `2*i` and `2*i+1`). -/
def loadVsPriceSampleData (data : List LoadPricePoint) (today : Int)
    (rand : Nat → ℚ) : List LoadPricePoint :=
  if data.length > 0 then data
  else
    (List.range 24).map fun (i : ℕ) =>
      let peakOffset : ℚ := |(i : ℚ) - 16|
      let peakFactor : ℚ := max 0 (8000 - peakOffset * 900)
      let load : ℚ := 15000 + peakFactor + rand (2 * i) * 500
      { load_mw := load
        price := 30 + (load / 10000) * 20 + rand (2 * i + 1) * 15
        timestamp := today + 60 * (i : Int)
        zone := "SAMPLE" }

/-- Row shape of the generated WeatherDataChart series. -/
structure WeatherPoint where
  timestamp : Int
  temperature : ℚ
  load_mw : ℚ
  renewable_output_mw : ℚ
  wind_speed : ℚ
  precipitation : ℚ
  cloud_cover : ℚ
deriving DecidableEq, Repr

/-- Input row shape of the WeatherDataChart data prop (from
`weatherService.WeatherData`, optional fields already defaulted to 0 as the
component does with `|| 0`). -/
structure WeatherInput where
  timestamp : Int
  temperature : ℚ
  wind_speed : ℚ
  precipitation : ℚ
  cloud_cover : ℚ
deriving DecidableEq, Repr

/-- JavaScript `a || b` over numbers: `b` when `a` is missing or `0`. -/
def orFalsy (a : Option ℚ) (b : ℚ) : ℚ :=
  match a with
  | some v => if v = 0 then b else v
  | none => b

/-- Embeds the generated 24-hour branch of `WeatherDataChart`.  Each hour
consumes up to five `Math.random()` draws (load, wind, cloud, precipitation
test, precipitation value); `sinq` models `x ↦ Math.sin(π x)` for the solar
curve, kept abstract because its exact values do not matter here. -/
def weatherChartGenerated (today : Int) (rand : Nat → ℚ) (sinq : ℚ → ℚ) :
    List WeatherPoint :=
  (List.range 24).map fun (i : ℕ) =>
    let hour : ℚ := (i : ℚ)
    let tempOffset : ℚ := |hour - 15|
    let temperature : ℚ := 60 + (20 - tempOffset * 1.5)
    let morningPeak : ℚ :=
      if i = 8 then 3000 else if i = 7 ∨ i = 9 then 2000
      else if i = 6 ∨ i = 10 then 1000 else 0
    let eveningPeak : ℚ :=
      if i = 19 then 4000 else if i = 18 ∨ i = 20 then 3000
      else if i = 17 ∨ i = 21 then 1500 else 0
    let tempFactor : ℚ := max 0 ((temperature - 65) * 100)
    let load : ℚ := 15000 + morningPeak + eveningPeak + tempFactor + rand (5 * i) * 300
    let dayFactor : ℚ := if 8 ≤ i ∧ i ≤ 18 then -3 else 3
    let wind_speed : ℚ := 10 + dayFactor + (rand (5 * i + 1) * 5 - 2.5)
    let baseClouds : ℚ := if i < 12 then 50 else 30
    let cloud_cover : ℚ := max 0 (min 100 (baseClouds + (rand (5 * i + 2) * 30 - 15)))
    let precipChance : ℚ := if i < 10 then 0.3 else 0.1
    let precipitation : ℚ :=
      if rand (5 * i + 3) < precipChance then rand (5 * i + 4) * 0.5 else 0
    let windOutput : ℚ := 2000 * (wind_speed / 15)
    let solarBase : ℚ := if 6 ≤ i ∧ i ≤ 18 then 3000 * sinq ((hour - 6) / 12) else 0
    let solarOutput : ℚ := solarBase * (1 - (cloud_cover / 100) * 0.8)
    { timestamp := today + 60 * (i : Int)
      temperature := temperature
      load_mw := load
      renewable_output_mw := windOutput + solarOutput
      wind_speed := wind_speed
      precipitation := precipitation
      cloud_cover := cloud_cover }

/-- Embeds the `sampleData` computation of `WeatherDataChart`: when the data
prop is non-empty, real rows are combined with the `loadData` and
`renewableOutput` props, falling back to `Math.random()` mocks per the
`||` defaulting; when empty, the fully generated series is used. -/
def weatherChartSampleData (data : List WeatherInput) (loadData : List ℚ)
    (renewableOutput : List ℚ) (today : Int) (rand : Nat → ℚ) (sinq : ℚ → ℚ) :
    List WeatherPoint :=
  if data.length > 0 then
    data.enum.map fun di =>
      { timestamp := di.2.timestamp
        temperature := di.2.temperature
        load_mw := orFalsy (loadData.get? di.1) (15000 + rand (2 * di.1) * 5000)
        renewable_output_mw :=
          orFalsy (renewableOutput.get? di.1) (5000 + rand (2 * di.1 + 1) * 3000)
        wind_speed := di.2.wind_speed
        precipitation := di.2.precipitation
        cloud_cover := di.2.cloud_cover }
  else
    weatherChartGenerated today rand sinq

/-- Row shape of the ZonalDataChart data prop. -/
structure ZonalRow where
  zone_name : String
  load_mw : ℚ
  price : ℚ
  renewable_percentage : ℚ
deriving DecidableEq, Repr

/-- Embeds the `sampleData` computation of `ZonalDataChart`: the data prop
when non-empty, otherwise six hard-coded literal rows; no randomness is
involved. -/
def zonalDataChartSampleData (data : List ZonalRow) : List ZonalRow :=
  if data.length > 0 then data
  else
    [ { zone_name := "ZONE_A", load_mw := 18500, price := 42.75, renewable_percentage := 12 }
    , { zone_name := "ZONE_B", load_mw := 12300, price := 38.50, renewable_percentage := 28 }
    , { zone_name := "ZONE_C", load_mw := 9800, price := 45.20, renewable_percentage := 8 }
    , { zone_name := "ZONE_D", load_mw := 15200, price := 40.10, renewable_percentage := 18 }
    , { zone_name := "ZONE_E", load_mw := 7500, price := 36.80, renewable_percentage := 35 }
    , { zone_name := "ZONE_F", load_mw := 5200, price := 39.90, renewable_percentage := 22 } ]

/-- Row shape of the InterfaceFlowChart data prop. -/
structure FlowRow where
  from_zone : String
  to_zone : String
  flow_mw : ℚ
  timestamp : Int
deriving DecidableEq, Repr

/-- Embeds the `sampleData` computation of `InterfaceFlowChart`: the data
prop when non-empty, otherwise six hard-coded flow rows stamped with the
current instant; no randomness is involved. -/
def interfaceFlowSampleData (data : List FlowRow) (now : Int) : List FlowRow :=
  if data.length > 0 then data
  else
    [ { from_zone := "ZONE_A", to_zone := "ZONE_B", flow_mw := 1200, timestamp := now }
    , { from_zone := "ZONE_A", to_zone := "ZONE_C", flow_mw := 800, timestamp := now }
    , { from_zone := "ZONE_B", to_zone := "ZONE_D", flow_mw := 500, timestamp := now }
    , { from_zone := "ZONE_C", to_zone := "ZONE_A", flow_mw := -350, timestamp := now }
    , { from_zone := "ZONE_D", to_zone := "ZONE_A", flow_mw := -600, timestamp := now }
    , { from_zone := "ZONE_D", to_zone := "ZONE_C", flow_mw := 250, timestamp := now } ]

/-- Row shape of `weatherService.WeatherData` as consumed by the
`useWeatherData` hook. -/
structure WeatherApiRow where
  zone_name : String
  timestamp : Int
  temperature : ℚ
  humidity : ℚ
  wind_speed : ℚ
  wind_direction : ℚ
  precipitation : ℚ
  cloud_cover : ℚ
  is_forecast : Bool
deriving DecidableEq, Repr

/-- Embeds `generateMockData` of `useWeatherData`: a mock current-weather
row and a 24-hour mock forecast, both drawn from `Math.random()`.  `nowTs`
is the current instant in minutes and `nowHour` the current local hour. -/
def generateMockData (zone : String) (nowTs : Int) (nowHour : ℕ)
    (rand : Nat → ℚ) : WeatherApiRow × List WeatherApiRow :=
  let current : WeatherApiRow :=
    { zone_name := zone
      timestamp := nowTs
      temperature := 65 + rand 0 * 15
      humidity := 40 + rand 1 * 40
      wind_speed := 5 + rand 2 * 15
      wind_direction := rand 3 * 360
      precipitation := if rand 4 < 0.3 then rand 5 * 0.5 else 0
      cloud_cover := rand 6 * 100
      is_forecast := false }
  let forecast : List WeatherApiRow :=
    (List.range 24).map fun (i : ℕ) =>
      let hourOfDay : ℕ := (nowHour + i) % 24
      let tempOffset : ℚ := |(hourOfDay : ℚ) - 15|
      let windSpeed : ℚ :=
        10 + (if hourOfDay < 6 ∨ hourOfDay > 18 then 5 else -2) +
          (rand (7 + 5 * i) * 6 - 3)
      let cloudCover : ℚ :=
        max 0 (min 100
          (if hourOfDay < 12 then 50 + (rand (7 + 5 * i + 1) * 30 - 15)
           else 30 + (rand (7 + 5 * i + 1) * 30 - 15)))
      let precipChance : ℚ := 0.1 + (cloudCover / 100) * 0.4
      { zone_name := zone
        timestamp := nowTs + 60 * (i : Int)
        temperature := 60 + (20 - tempOffset * 1.5)
        humidity := 40 + rand (7 + 5 * i + 2) * 40
        wind_speed := max 0 windSpeed
        wind_direction := rand (7 + 5 * i + 3) * 360
        precipitation := if rand (7 + 5 * i + 4) < precipChance
          then rand (7 + 5 * i + 4) * 0.5 else 0
        cloud_cover := cloudCover
        is_forecast := true }
  (current, forecast)

/-- Visible outcome of one `fetchData` run of the `useWeatherData` hook. -/
structure HookState where
  currentWeather : Option WeatherApiRow
  forecastData : List WeatherApiRow
  useMockData : Bool
deriving DecidableEq, Repr

/-- Error raised by the weather service calls. -/
inductive FetchError
  | network
deriving DecidableEq, Repr

/-- Embeds `fetchData` of `useWeatherData`: on a successful service call the
first (or zone-matching) current row and the fetched forecast are kept with
`useMockData = false`; on any thrown error both current weather and the
forecast are replaced by `generateMockData` and only `useMockData = true`
records the substitution. -/
def fetchDataModel (zone : Option String)
    (result : Except FetchError (List WeatherApiRow × List WeatherApiRow))
    (prev : HookState) (nowTs : Int) (nowHour : ℕ) (rand : Nat → ℚ) :
    HookState :=
  match result with
  | .ok (currentData, forecast) =>
      let zoneData :=
        match zone with
        | some z => currentData.find? fun d => d.zone_name == z
        | none => currentData.head?
      { currentWeather := match zoneData with
          | some d => some d
          | none => prev.currentWeather
        forecastData := forecast
        useMockData := false }
  | .error _ =>
      let mock := generateMockData (zone.getD "nyiso_nyc") nowTs nowHour rand
      { currentWeather := some mock.1
        forecastData := mock.2
        useMockData := true }

/-- Entry of the dashboard FuelMixChart's processed series. -/
structure FuelMixEntry where
  fuelType : String
  generation : ℚ
deriving DecidableEq, Repr

/-- Embeds the response-processing loop of `fetchFuelMixData` in the
dashboard `FuelMixChart`: the endpoint returns one timestamp-keyed series
per fuel type; for each non-empty series only the value at the last
timestamp key is kept, and the kept entries are sorted by generation
descending (a stable JS sort with comparator `b.generation - a.generation`). -/
def processFuelMixData (fuelMixSeries : List (String × List (String × ℚ))) :
    List FuelMixEntry :=
  Core.sortOrd (fun a b => decide (b.generation < a.generation))
    (fuelMixSeries.filterMap fun kv =>
      kv.2.getLast?.map fun p => { fuelType := kv.1, generation := p.2 })

/-- Embeds the `totalMW` memo of the dashboard `FuelMixChart`:
`reduce((total, fuel) => total + fuel.generation, 0)`. -/
def totalMW (l : List FuelMixEntry) : ℚ :=
  l.foldl (fun acc f => acc + f.generation) 0

/-- Latest value kept from each non-empty per-fuel-type series, in response
order and before sorting; used to characterize `processFuelMixData`. -/
def latestEntries (fuelMixSeries : List (String × List (String × ℚ))) :
    List FuelMixEntry :=
  fuelMixSeries.filterMap fun kv =>
    kv.2.getLast?.map fun p => { fuelType := kv.1, generation := p.2 }

end Frontend

/-
Concrete fixtures used by the claim witnesses.
-/

/-- Four 15-minute price records 10, 20, 30, 40 at 00:00, 00:15, 00:30 and
00:45 of the epoch hour, all for one zone. -/
def priceFixture : List Core.RawRecord :=
  [ { fact := .price, key := "Z", ts := 0, value := 10 }
  , { fact := .price, key := "Z", ts := 15, value := 20 }
  , { fact := .price, key := "Z", ts := 30, value := 30 }
  , { fact := .price, key := "Z", ts := 45, value := 40 } ]

/-- Hourly average query over the epoch hour. -/
def qPriceAvg : Core.Query :=
  { fact := .price, keys := none, lo := 0, hi := 60, interval := .hourly,
    aggFunc := some .avg, tz := 0 }

/-- Two fuel-mix records for distinct fuel types in the same hour. -/
def fuelFixture : List Core.RawRecord :=
  [ { fact := .fuelMix, key := "NG", ts := 0, value := 200 }
  , { fact := .fuelMix, key := "COL", ts := 0, value := 300 } ]

/-- Hourly sum query over the epoch hour for the fuel-mix records. -/
def qFuelSum : Core.Query :=
  { fact := .fuelMix, keys := none, lo := 0, hi := 60, interval := .hourly,
    aggFunc := some .sum, tz := 0 }

/-- A day of weather rows for one region: forecast rows for all 24 hours and
actual rows for the first 18 hours only (actuals sit at minute 30, so the
pairing has to bucket to the hour). -/
def weatherFixture : List Core.WeatherRow :=
  ((List.range 24).map fun (h : ℕ) =>
    { region := "R", ts := 60 * (h : Int), isForecast := true,
      temp := 50 + (h : ℚ) }) ++
  ((List.range 18).map fun (h : ℕ) =>
    { region := "R", ts := 60 * (h : Int) + 30, isForecast := false,
      temp := 49 + (h : ℚ) })


/-
Shared helper lemmas.
-/

namespace Core

theorem insertOrd_perm {α : Type} (lt : α → α → Bool) (a : α) (l : List α) :
    List.Perm (insertOrd lt a l) (a :: l) := by
  induction l with
  | nil => exact List.Perm.refl _
  | cons x xs ih =>
    by_cases h : lt x a = true
    · simpa [insertOrd, h] using (ih.cons x).trans (List.Perm.swap a x xs)
    · simp [insertOrd, h]

theorem sortOrd_perm {α : Type} (lt : α → α → Bool) (l : List α) :
    List.Perm (sortOrd lt l) l := by
  induction l with
  | nil => exact List.Perm.refl _
  | cons x xs ih =>
    exact (insertOrd_perm lt x (sortOrd lt xs)).trans (ih.cons x)

theorem insertOrd_pairwise {α : Type} (lt : α → α → Bool)
    (hasymm : ∀ x y, lt x y = true → lt y x = false)
    (hneg : ∀ x y z, lt y z = false → lt x y = false → lt x z = false)
    (a : α) (l : List α) (hl : l.Pairwise fun x y => lt y x = false) :
    (insertOrd lt a l).Pairwise fun x y => lt y x = false := by
  induction l with
  | nil => simp [insertOrd]
  | cons x xs ih =>
    rcases List.pairwise_cons.mp hl with ⟨hx, hxs⟩
    by_cases h : lt x a = true
    · rw [insertOrd, if_pos h]
      refine List.pairwise_cons.mpr ⟨?_, ih hxs⟩
      intro y hy
      rcases List.mem_cons.mp ((insertOrd_perm lt a xs).mem_iff.mp hy) with hya | hyxs
      · rw [hya]; exact hasymm x a h
      · exact hx y hyxs
    · rw [insertOrd, if_neg h]
      refine List.pairwise_cons.mpr ⟨?_, hl⟩
      intro y hy
      rcases List.mem_cons.mp hy with hyx | hyxs
      · rw [hyx]; exact Bool.eq_false_iff.mpr h
      · exact hneg y x a (Bool.eq_false_iff.mpr h) (hx y hyxs)

theorem sortOrd_pairwise {α : Type} (lt : α → α → Bool)
    (hasymm : ∀ x y, lt x y = true → lt y x = false)
    (hneg : ∀ x y z, lt y z = false → lt x y = false → lt x z = false)
    (l : List α) :
    (sortOrd lt l).Pairwise fun x y => lt y x = false := by
  induction l with
  | nil => simp [sortOrd]
  | cons x xs ih => exact insertOrd_pairwise lt hasymm hneg x (sortOrd lt xs) ih

theorem dedup_const {α : Type} [DecidableEq α] (k : α) (l : List α)
    (hne : l ≠ []) (hall : ∀ x ∈ l, x = k) : l.dedup = [k] := by
  induction l with
  | nil => exact absurd rfl hne
  | cons a as ih =>
    have ha : a = k := hall a (List.mem_cons_self a as)
    cases as with
    | nil => simp [ha]
    | cons b bs =>
      have hb : b = k := hall b (by simp)
      have hmem : a ∈ b :: bs := by rw [ha, ← hb]; exact List.mem_cons_self b bs
      rw [List.dedup_cons_of_mem hmem]
      exact ih (by simp) fun x hx => hall x (List.mem_cons_of_mem a hx)

theorem bucketStart_hourly_eq (hourStart tz t : Int) (h0 : hourStart % 60 = 0)
    (h1 : hourStart ≤ t) (h2 : t < hourStart + 60) :
    bucketStart .hourly tz t = hourStart := by
  simp only [bucketStart, floorTo]
  omega

theorem bucketStart_mono (iv : Interval) (tz : Int) {a b : Int} (h : a ≤ b) :
    bucketStart iv tz a ≤ bucketStart iv tz b := by
  cases iv <;> simp only [bucketStart, floorTo] <;> omega

end Core

namespace Core

theorem aggregate_ok_unfold (store : List RawRecord) (q : Query)
    (h : compatible q.fact (q.aggFunc.getD (defaultAgg q.fact)) = true) :
    aggregate store q =
      .ok (((scan store q).map (·.key)).dedup.map fun k =>
        (k, bucketize q.interval q.tz (q.aggFunc.getD (defaultAgg q.fact))
          ((scan store q).filter fun r => r.key == k))) := by
  simp only [aggregate]
  rw [if_pos h]

theorem aggregate_error_unfold (store : List RawRecord) (q : Query)
    (h : compatible q.fact (q.aggFunc.getD (defaultAgg q.fact)) = false) :
    aggregate store q = .error .validationError := by
  simp only [aggregate]
  rw [if_neg (by simp [h])]

theorem scan_perm (store : List RawRecord) (q : Query) :
    List.Perm (scan store q) (store.filter (matchesQ q)) :=
  sortOrd_perm _ _

theorem scan_sorted (store : List RawRecord) (q : Query) :
    (scan store q).Pairwise fun a b => a.ts ≤ b.ts := by
  have h := sortOrd_pairwise (fun a b => decide (a.ts < b.ts))
    (fun x y hxy => by
      simp only [decide_eq_true_eq] at hxy
      simp only [decide_eq_false_iff_not]
      omega)
    (fun x y z hyz hxy => by
      simp only [decide_eq_false_iff_not] at hyz hxy ⊢
      omega)
    (store.filter (matchesQ q))
  exact h.imp fun hab => by
    simp only [decide_eq_false_iff_not] at hab
    omega

end Core

/-- C1: over a set of price records lying in one UTC-aligned hour, the
hourly average aggregation returns exactly one bucket holding the
arithmetic mean of the records; on the 10/20/30/40 fixture the single
bucket value is 25, and avg is the default aggregation function for both
price and load. -/
theorem hourly_avg_single_bucket (recs : List Core.RawRecord) (k : String)
    (hourStart tz : Int)
    (hne : recs ≠ [])
    (hfact : ∀ r ∈ recs, r.fact = .price)
    (hkey : ∀ r ∈ recs, r.key = k)
    (hts : ∀ r ∈ recs, hourStart ≤ r.ts ∧ r.ts < hourStart + 60)
    (hhs : hourStart % 60 = 0) :
    Core.aggregate recs
      { fact := .price, keys := none, lo := hourStart, hi := hourStart + 60,
        interval := .hourly, aggFunc := some .avg, tz := tz } =
      .ok [(k, [(hourStart, (recs.map (·.value)).sum / (recs.length : ℚ))])] ∧
    Core.defaultAgg .price = .avg ∧ Core.defaultAgg .load = .avg ∧
    Core.aggregate priceFixture qPriceAvg = .ok [("Z", [(0, 25)])] := by
  refine ⟨?_, rfl, rfl, by with_unfolding_all rfl⟩
  set q : Core.Query :=
    { fact := .price, keys := none, lo := hourStart, hi := hourStart + 60,
      interval := .hourly, aggFunc := some .avg, tz := tz } with hq
  rw [Core.aggregate_ok_unfold recs q (by rfl)]
  have hmatch : ∀ r ∈ recs, Core.matchesQ q r = true := by
    intro r hr
    simp [Core.matchesQ, hq, hfact r hr, (hts r hr).1, (hts r hr).2]
  have hfilter : recs.filter (Core.matchesQ q) = recs :=
    List.filter_eq_self.mpr hmatch
  have hSperm : List.Perm (Core.scan recs q) recs := by
    have := Core.scan_perm recs q
    rwa [hfilter] at this
  set S := Core.scan recs q with hS
  have hkeyS : ∀ r ∈ S, r.key = k := fun r hr => hkey r (hSperm.mem_iff.mp hr)
  have htsS : ∀ r ∈ S, hourStart ≤ r.ts ∧ r.ts < hourStart + 60 :=
    fun r hr => hts r (hSperm.mem_iff.mp hr)
  have hSne : S ≠ [] := by
    intro h
    apply hne
    have := hSperm.length_eq
    rw [h] at this
    exact List.length_eq_zero.mp this.symm
  have hkeys : (S.map (·.key)).dedup = [k] := by
    apply Core.dedup_const
    · simpa using hSne
    · intro x hx
      rcases List.mem_map.mp hx with ⟨r, hr, rfl⟩
      exact hkeyS r hr
  have hfk : S.filter (fun r => r.key == k) = S := by
    apply List.filter_eq_self.mpr
    intro r hr
    simp [hkeyS r hr]
  have hbm : ∀ r ∈ S, Core.bucketStart .hourly tz r.ts = hourStart :=
    fun r hr => Core.bucketStart_hourly_eq hourStart tz r.ts hhs (htsS r hr).1 (htsS r hr).2
  have hbl : (S.map fun r => Core.bucketStart .hourly tz r.ts).dedup = [hourStart] := by
    apply Core.dedup_const
    · simpa using hSne
    · intro x hx
      rcases List.mem_map.mp hx with ⟨r, hr, rfl⟩
      exact hbm r hr
  have hfb : (S.filter fun r => Core.bucketStart .hourly tz r.ts == hourStart) = S := by
    apply List.filter_eq_self.mpr
    intro r hr
    simp [hbm r hr]
  have hsum : (S.map (·.value)).sum = (recs.map (·.value)).sum :=
    (hSperm.map _).sum_eq
  have hlen : S.length = recs.length := hSperm.length_eq
  simp only [hq]
  rw [hkeys]
  simp only [List.map_cons, List.map_nil, Core.bucketize]
  rw [hfk, hbl]
  simp only [List.map_cons, List.map_nil]
  rw [hfb]
  simp only [Core.applyAgg, List.length_map]
  rw [hsum, hlen]
  rfl

/-- Witness: C1's theorem applied to the four-record price fixture. -/
theorem hourly_avg_single_bucket_witness :
    Core.aggregate priceFixture
      { fact := .price, keys := none, lo := 0, hi := 0 + 60,
        interval := .hourly, aggFunc := some .avg, tz := 0 } =
      .ok [("Z", [(0, (priceFixture.map (·.value)).sum / (priceFixture.length : ℚ))])] ∧
    Core.defaultAgg .price = .avg ∧ Core.defaultAgg .load = .avg ∧
    Core.aggregate priceFixture qPriceAvg = .ok [("Z", [(0, 25)])] :=
  hourly_avg_single_bucket priceFixture "Z" 0 0 (by decide) (by decide)
    (by decide) (by decide) (by decide)

/-- C4: a query pairing a fact type with an incompatible aggregation
function — in particular any sum-over-price query — fails with a
ValidationError, and an ok result is only ever produced when the function
actually applied (requested or default) is compatible with the fact type. -/
theorem incompatible_agg_rejected :
    (∀ (store : List Core.RawRecord) (keys : Option (List String))
        (lo hi tz : Int) (iv : Core.Interval),
      Core.aggregate store
        { fact := .price, keys := keys, lo := lo, hi := hi, interval := iv,
          aggFunc := some .sum, tz := tz } = .error .validationError) ∧
    (∀ (store : List Core.RawRecord) (q : Core.Query) (f : Core.AggFunc),
      q.aggFunc = some f → Core.compatible q.fact f = false →
      Core.aggregate store q = .error .validationError) ∧
    (∀ (store : List Core.RawRecord) (q : Core.Query)
        (res : List (String × List (Int × ℚ))),
      Core.aggregate store q = .ok res →
      Core.compatible q.fact (q.aggFunc.getD (Core.defaultAgg q.fact)) = true) := by
  refine ⟨?_, ?_, ?_⟩
  · intro store keys lo hi tz iv
    exact Core.aggregate_error_unfold _ _ rfl
  · intro store q f hf hc
    exact Core.aggregate_error_unfold _ _ (by rw [hf]; simpa using hc)
  · intro store q res hok
    by_contra h
    rw [Core.aggregate_error_unfold _ _ (Bool.eq_false_iff.mpr h)] at hok
    simp at hok

/-- Witness: C4's theorem applied to a concrete sum-over-price query. -/
theorem incompatible_agg_rejected_witness :
    Core.aggregate priceFixture
      { fact := .price, keys := none, lo := 0, hi := 60, interval := .hourly,
        aggFunc := some .sum, tz := 0 } = .error .validationError :=
  incompatible_agg_rejected.2.1 priceFixture
    { fact := .price, keys := none, lo := 0, hi := 60, interval := .hourly,
      aggFunc := some .sum, tz := 0 } .sum rfl rfl

/-- C8: buckets with no underlying raw record are omitted, never
zero-filled: every bucket of every returned series is witnessed by a stored
record that matches the query's filters and time range, lies in that
series, and falls in that bucket. -/
theorem buckets_never_zero_filled (store : List Core.RawRecord)
    (q : Core.Query) (res : List (String × List (Int × ℚ)))
    (hok : Core.aggregate store q = .ok res) :
    ∀ ks ∈ res, ∀ bv ∈ ks.2, ∃ r ∈ store,
      Core.matchesQ q r = true ∧ r.key = ks.1 ∧
      Core.bucketStart q.interval q.tz r.ts = bv.1 := by
  by_cases hc : Core.compatible q.fact (q.aggFunc.getD (Core.defaultAgg q.fact)) = true
  · rw [Core.aggregate_ok_unfold store q hc] at hok
    simp only [Except.ok.injEq] at hok
    subst hok
    intro ks hks
    rcases List.mem_map.mp hks with ⟨kk, hkk, rfl⟩
    intro bv hbv
    simp only [Core.bucketize] at hbv
    rcases List.mem_map.mp hbv with ⟨b, hb, rfl⟩
    rcases List.mem_map.mp (List.mem_dedup.mp hb) with ⟨r, hr, hrb⟩
    have hrS : r ∈ Core.scan store q := (List.mem_filter.mp hr).1
    have hrkey : r.key = kk := by
      have := (List.mem_filter.mp hr).2
      simpa using this
    have hrStore := (Core.scan_perm store q).mem_iff.mp hrS
    exact ⟨r, (List.mem_filter.mp hrStore).1,
      (List.mem_filter.mp hrStore).2, hrkey, hrb⟩
  · rw [Core.aggregate_error_unfold _ _ (Bool.eq_false_iff.mpr hc)] at hok
    simp at hok

/-- Witness: C8's theorem applied to the fuel-mix fixture and one of its
returned buckets. -/
theorem buckets_never_zero_filled_witness :
    ∃ r ∈ fuelFixture, Core.matchesQ qFuelSum r = true ∧ r.key = "NG" ∧
      Core.bucketStart qFuelSum.interval qFuelSum.tz r.ts = 0 :=
  buckets_never_zero_filled fuelFixture qFuelSum
    [("NG", [(0, 200)]), ("COL", [(0, 300)])] (by with_unfolding_all rfl)
    ("NG", [(0, 200)]) (by decide) (0, 200) (by decide)

/-- C7: filters resolving to multiple series keys yield one ordered
sequence per key, keyed by the grouping dimension, never a flattened
merge: the fuel-mix fixture returns separate per-fuel-type sums 200 and
300 (not 500), and in general the result carries exactly one entry per
distinct series key of the scan, with no duplicate keys, each series
ordered by bucket timestamp. -/
theorem multi_series_grouping :
    Core.aggregate fuelFixture qFuelSum =
      .ok [("NG", [(0, 200)]), ("COL", [(0, 300)])] ∧
    (∀ (store : List Core.RawRecord) (q : Core.Query)
        (res : List (String × List (Int × ℚ))),
      Core.aggregate store q = .ok res →
      res.map Prod.fst = ((Core.scan store q).map (·.key)).dedup ∧
      (res.map Prod.fst).Nodup ∧
      ∀ ks ∈ res, ks.2.Pairwise fun a b => a.1 ≤ b.1) := by
  refine ⟨by with_unfolding_all rfl, ?_⟩
  intro store q res hok
  by_cases hc : Core.compatible q.fact (q.aggFunc.getD (Core.defaultAgg q.fact)) = true
  · rw [Core.aggregate_ok_unfold store q hc] at hok
    simp only [Except.ok.injEq] at hok
    subst hok
    have hfst : (((Core.scan store q).map (·.key)).dedup.map fun k =>
        (k, Core.bucketize q.interval q.tz (q.aggFunc.getD (Core.defaultAgg q.fact))
          ((Core.scan store q).filter fun r => r.key == k))).map Prod.fst =
        ((Core.scan store q).map (·.key)).dedup := by
      rw [List.map_map]
      exact List.map_id _
    refine ⟨hfst, ?_, ?_⟩
    · rw [hfst]
      exact List.nodup_dedup _
    · intro ks hks
      rcases List.mem_map.mp hks with ⟨kk, hkk, rfl⟩
      simp only [Core.bucketize]
      have hsorted := Core.scan_sorted store q
      have hfiltered := hsorted.filter (fun r => r.key == kk)
      have hbuckets : (((Core.scan store q).filter fun r => r.key == kk).map
          fun r => Core.bucketStart q.interval q.tz r.ts).Pairwise
          fun a b => a ≤ b :=
        List.pairwise_map.mpr (hfiltered.imp fun hab =>
          Core.bucketStart_mono q.interval q.tz hab)
      have hdedup := hbuckets.sublist (List.dedup_sublist _)
      exact List.pairwise_map.mpr (hdedup.imp fun hab => hab)
  · rw [Core.aggregate_error_unfold _ _ (Bool.eq_false_iff.mpr hc)] at hok
    simp at hok

/-- Witness: C7's general grouping conjunct applied to the fuel-mix
fixture. -/
theorem multi_series_grouping_witness :
    ([("NG", [((0 : Int), (200 : ℚ))]), ("COL", [((0 : Int), (300 : ℚ))])].map
        Prod.fst = ((Core.scan fuelFixture qFuelSum).map (·.key)).dedup) ∧
    ([("NG", [((0 : Int), (200 : ℚ))]), ("COL", [((0 : Int), (300 : ℚ))])].map
        Prod.fst).Nodup :=
  (fun H => ⟨H.1, H.2.1⟩)
    (multi_series_grouping.2 fuelFixture qFuelSum
      [("NG", [(0, 200)]), ("COL", [(0, 300)])] (by with_unfolding_all rfl))

namespace Core

theorem rowKey_replace (r x : RawRecord) :
    rowKey (if rowKey x = rowKey r then r else x) = rowKey x := by
  by_cases hx : rowKey x = rowKey r <;> simp [hx]

theorem find?_map_replace (s : List RawRecord) (r : RawRecord)
    (k : FactType × String × Int) (hk : rowKey r ≠ k) :
    ((s.map fun x => if rowKey x = rowKey r then r else x).find?
      fun x => decide (rowKey x = k)) =
      s.find? fun x => decide (rowKey x = k) := by
  induction s with
  | nil => rfl
  | cons a as ih =>
    simp only [List.map_cons]
    by_cases ha : rowKey a = rowKey r
    · rw [if_pos ha]
      rw [List.find?_cons_of_neg _ (by simpa using hk),
          List.find?_cons_of_neg _ (by simp [ha]; exact fun h => hk (ha ▸ h))]
      exact ih
    · rw [if_neg ha]
      by_cases hak : rowKey a = k
      · rw [List.find?_cons_of_pos _ (by simpa using hak),
            List.find?_cons_of_pos _ (by simpa using hak)]
      · rw [List.find?_cons_of_neg _ (by simpa using hak),
            List.find?_cons_of_neg _ (by simpa using hak)]
        exact ih

theorem find?_map_replace_self (s : List RawRecord) (r : RawRecord)
    (hp : (s.any fun x => decide (rowKey x = rowKey r)) = true) :
    ((s.map fun x => if rowKey x = rowKey r then r else x).find?
      fun x => decide (rowKey x = rowKey r)) = some r := by
  induction s with
  | nil => simp at hp
  | cons a as ih =>
    simp only [List.any_cons, Bool.or_eq_true] at hp
    simp only [List.map_cons]
    by_cases ha : rowKey a = rowKey r
    · rw [if_pos ha]
      rw [List.find?_cons_of_pos _ (by simp)]
    · rw [if_neg ha]
      rw [List.find?_cons_of_neg _ (by simpa using ha)]
      refine ih ?_
      rcases hp with h | h
      · exact absurd (of_decide_eq_true h) ha
      · exact h

theorem lookupRow_upsertOne (s : List RawRecord) (r : RawRecord)
    (k : FactType × String × Int) :
    lookupRow (upsertOne s r) k =
      if rowKey r = k then some r else lookupRow s k := by
  unfold upsertOne lookupRow
  by_cases hp : (s.any fun x => decide (rowKey x = rowKey r)) = true
  · rw [if_pos hp]
    by_cases hk : rowKey r = k
    · rw [if_pos hk]
      subst hk
      exact find?_map_replace_self s r hp
    · rw [if_neg hk]
      exact find?_map_replace s r k hk
  · rw [if_neg hp]
    rw [List.find?_append]
    by_cases hk : rowKey r = k
    · rw [if_pos hk]
      have hs : (s.find? fun x => decide (rowKey x = k)) = none := by
        rw [List.find?_eq_none]
        intro x hx
        simp only [decide_eq_true_eq]
        intro hxk
        exact hp (List.any_eq_true.mpr ⟨x, hx, by simp [hxk, hk]⟩)
      rw [hs]
      simp [List.find?, hk]
    · rw [if_neg hk]
      have ht : ([r].find? fun x => decide (rowKey x = k)) = none := by
        simp [List.find?, hk]
      rw [ht, Option.or_none]

theorem lookupRow_upsertBatch (b : List RawRecord) :
    ∀ (s : List RawRecord) (k : FactType × String × Int),
      lookupRow (upsertBatch s b) k =
        match lastWrite b k with
        | some v => some v
        | none => lookupRow s k := by
  induction b with
  | nil => intro s k; rfl
  | cons r rs ih =>
    intro s k
    show lookupRow (upsertBatch (upsertOne s r) rs) k = _
    rw [ih]
    cases hlw : lastWrite rs k with
    | some v => simp [lastWrite, hlw, Option.orElse]
    | none =>
      rw [lookupRow_upsertOne]
      by_cases hk : rowKey r = k <;>
        simp [lastWrite, hlw, Option.orElse, hk]

theorem lastWrite_isSome_of_mem (b : List RawRecord) (r : RawRecord)
    (hr : r ∈ b) : (lastWrite b (rowKey r)).isSome = true := by
  induction b with
  | nil => cases hr
  | cons a as ih =>
    rcases List.mem_cons.mp hr with h | h
    · subst h
      cases has : lastWrite as (rowKey r) <;>
        simp [lastWrite, has, Option.orElse]
    · have := ih h
      cases has : lastWrite as (rowKey r) <;>
        simp_all [lastWrite, Option.orElse]

theorem any_key_iff_lookup (s : List RawRecord) (k : FactType × String × Int) :
    (s.any fun x => decide (rowKey x = k)) = true ↔
      (lookupRow s k).isSome = true := by
  rw [List.any_eq_true]
  unfold lookupRow
  rw [List.find?_isSome]

theorem length_upsertOne_of_key (s : List RawRecord) (r : RawRecord)
    (h : (s.any fun x => decide (rowKey x = rowKey r)) = true) :
    (upsertOne s r).length = s.length := by
  unfold upsertOne
  rw [if_pos h, List.length_map]

theorem any_key_upsertOne (s : List RawRecord) (r : RawRecord)
    (k : FactType × String × Int)
    (h : (s.any fun x => decide (rowKey x = k)) = true) :
    ((upsertOne s r).any fun x => decide (rowKey x = k)) = true := by
  unfold upsertOne
  by_cases hp : (s.any fun x => decide (rowKey x = rowKey r)) = true
  · rw [if_pos hp, List.any_map]
    rw [List.any_eq_true] at h ⊢
    rcases h with ⟨x, hx, hxk⟩
    refine ⟨x, hx, ?_⟩
    simp only [Function.comp, decide_eq_true_eq] at hxk ⊢
    by_cases hxr : rowKey x = rowKey r
    · simp only [if_pos hxr]
      rw [← hxr]
      exact hxk
    · simp only [if_neg hxr]
      exact hxk
  · rw [if_neg hp, List.any_append]
    simp [h]

theorem length_upsertBatch (b : List RawRecord) :
    ∀ s, (∀ r ∈ b, (s.any fun x => decide (rowKey x = rowKey r)) = true) →
      (upsertBatch s b).length = s.length := by
  induction b with
  | nil => intro s _; rfl
  | cons r rs ih =>
    intro s h
    show (upsertBatch (upsertOne s r) rs).length = s.length
    rw [ih (upsertOne s r) fun r' hr' =>
        any_key_upsertOne s r _ (h r' (List.mem_cons_of_mem _ hr')),
      length_upsertOne_of_key s r (h r (List.mem_cons_self r rs))]

theorem pairwise_keys_upsertOne (s : List RawRecord) (r : RawRecord)
    (h : s.Pairwise fun x y => rowKey x ≠ rowKey y) :
    (upsertOne s r).Pairwise fun x y => rowKey x ≠ rowKey y := by
  unfold upsertOne
  by_cases hp : (s.any fun x => decide (rowKey x = rowKey r)) = true
  · rw [if_pos hp, List.pairwise_map]
    exact h.imp fun hxy => by
      rw [rowKey_replace, rowKey_replace]
      exact hxy
  · rw [if_neg hp, List.pairwise_append]
    refine ⟨h, List.pairwise_singleton _ _, ?_⟩
    intro x hx y hy
    rcases List.mem_singleton.mp hy with rfl
    intro hxy
    exact hp (List.any_eq_true.mpr ⟨x, hx, by simp [hxy]⟩)

theorem pairwise_keys_upsertBatch (b : List RawRecord) :
    ∀ s, s.Pairwise (fun x y => rowKey x ≠ rowKey y) →
      (upsertBatch s b).Pairwise fun x y => rowKey x ≠ rowKey y := by
  induction b with
  | nil => intro s hs; exact hs
  | cons r rs ih =>
    intro s hs
    exact ih (upsertOne s r) (pairwise_keys_upsertOne s r hs)

end Core

/-- C2: upsert into the store is idempotent with respect to the natural
key: re-ingesting a batch leaves the row count and every stored value
unchanged, never creates duplicate rows for one natural key, and the value
stored for a key is the batch's last write for it (keyed by natural key,
not by arrival order). -/
theorem upsert_idempotent (s b : List Core.RawRecord) :
    (Core.upsertBatch (Core.upsertBatch s b) b).length =
      (Core.upsertBatch s b).length ∧
    (∀ k, Core.lookupRow (Core.upsertBatch (Core.upsertBatch s b) b) k =
      Core.lookupRow (Core.upsertBatch s b) k) ∧
    (s.Pairwise (fun x y => Core.rowKey x ≠ Core.rowKey y) →
      (Core.upsertBatch s b).Pairwise fun x y => Core.rowKey x ≠ Core.rowKey y) ∧
    (∀ k v, Core.lastWrite b k = some v →
      Core.lookupRow (Core.upsertBatch s b) k = some v) := by
  refine ⟨?_, ?_, fun hs => Core.pairwise_keys_upsertBatch b s hs, ?_⟩
  · apply Core.length_upsertBatch
    intro r hr
    rw [Core.any_key_iff_lookup, Core.lookupRow_upsertBatch]
    have hsome := Core.lastWrite_isSome_of_mem b r hr
    cases hlw : Core.lastWrite b (Core.rowKey r) with
    | some v => simp
    | none => rw [hlw] at hsome; simp at hsome
  · intro k
    rw [Core.lookupRow_upsertBatch, Core.lookupRow_upsertBatch]
    cases hlw : Core.lastWrite b k with
    | some v => rfl
    | none => rfl
  · intro k v hlw
    rw [Core.lookupRow_upsertBatch, hlw]

/-- Witness: C2's theorem applied to ingesting the price fixture twice
into an empty store. -/
theorem upsert_idempotent_witness :
    (Core.upsertBatch (Core.upsertBatch [] priceFixture) priceFixture).length =
      (Core.upsertBatch [] priceFixture).length ∧
    (Core.upsertBatch [] priceFixture).Pairwise
      (fun x y => Core.rowKey x ≠ Core.rowKey y) ∧
    Core.lookupRow (Core.upsertBatch [] priceFixture)
      (.price, "Z", 0) = some { fact := .price, key := "Z", ts := 0, value := 10 } :=
  ⟨(upsert_idempotent [] priceFixture).1,
   (upsert_idempotent [] priceFixture).2.2.1 List.Pairwise.nil,
   (upsert_idempotent [] priceFixture).2.2.2 (.price, "Z", 0)
     { fact := .price, key := "Z", ts := 0, value := 10 } (by decide)⟩

/-- C3: a successful tick advances the watermark of its entity type to the
end of the fetch window; a tick failing at any stage leaves both watermark
and store exactly unchanged; and across consecutive successful ticks at
non-decreasing times the watermark is non-decreasing and ends at the last
committed window end. -/
theorem watermark_monotone_atomic :
    (∀ (st : Core.OrchState) (store : List Core.RawRecord)
        (et : Core.FactType) (now : Int) (batch : List Core.RawRecord),
      ((Core.tick st store et now (.ok batch)).1).watermark et = now) ∧
    (∀ (st : Core.OrchState) (store : List Core.RawRecord)
        (et : Core.FactType) (now : Int) (e : Core.StageError),
      Core.tick st store et now (.error e) = (st, store)) ∧
    (∀ (st : Core.OrchState) (store : List Core.RawRecord)
        (et : Core.FactType)
        (ticks : List (Int × Except Core.StageError (List Core.RawRecord))),
      (∀ t ∈ ticks, ∃ b, t.2 = .ok b) →
      List.Chain (fun a b => a ≤ b) (st.watermark et) (ticks.map Prod.fst) →
      st.watermark et ≤ (Core.runTicks st store et ticks).1.watermark et ∧
      ∀ lastT, ticks.getLast? = some lastT →
        (Core.runTicks st store et ticks).1.watermark et = lastT.1) := by
  refine ⟨fun st store et now batch => by simp [Core.tick], fun _ _ _ _ _ => rfl, ?_⟩
  intro st store et ticks
  induction ticks generalizing st store with
  | nil =>
    intro _ _
    exact ⟨le_refl _, fun lastT h => by simp at h⟩
  | cons t rest ih =>
    intro hok hchain
    obtain ⟨now, outcome⟩ := t
    obtain ⟨b, rfl⟩ := hok (now, outcome) (List.mem_cons_self _ _)
    rw [List.map_cons, List.chain_cons] at hchain
    have hrun : Core.runTicks st store et ((now, Except.ok b) :: rest) =
        Core.runTicks (Core.tick st store et now (.ok b)).1
          (Core.tick st store et now (.ok b)).2 et rest := rfl
    have hwm : (Core.tick st store et now (.ok b)).1.watermark et = now := by
      simp [Core.tick]
    have hih := ih (Core.tick st store et now (.ok b)).1
      (Core.tick st store et now (.ok b)).2
      (fun t' ht' => hok t' (List.mem_cons_of_mem _ ht'))
      (by rw [hwm]; exact hchain.2)
    refine ⟨?_, ?_⟩
    · rw [hrun]
      have h1 := hih.1
      rw [hwm] at h1
      exact le_trans hchain.1 h1
    · intro lastT hlast
      cases rest with
      | nil =>
        simp only [List.getLast?_singleton, Option.some.injEq] at hlast
        subst hlast
        rw [hrun]
        exact hwm
      | cons t2 rest2 =>
        rw [hrun]
        exact hih.2 lastT (by rw [List.getLast?_cons_cons] at hlast; exact hlast)

/-- Witness: C3's monotonicity conjunct applied to two successful ticks at
times 5 and 7 from watermark 0, and its atomicity conjunct at a failed
tick. -/
theorem watermark_monotone_atomic_witness :
    (Core.OrchState.mk fun _ => 0).watermark .price ≤
      (Core.runTicks ⟨fun _ => 0⟩ [] .price
        [(5, .ok priceFixture), (7, .ok [])]).1.watermark .price ∧
    (Core.runTicks ⟨fun _ => 0⟩ [] .price
        [(5, .ok priceFixture), (7, .ok [])]).1.watermark .price = 7 ∧
    Core.tick ⟨fun _ => 0⟩ [] .price 9 (.error .fetchError) = (⟨fun _ => 0⟩, []) :=
  ⟨(watermark_monotone_atomic.2.2 ⟨fun _ => 0⟩ [] .price
      [(5, .ok priceFixture), (7, .ok [])]
      (by
        intro t ht
        rcases List.mem_cons.mp ht with rfl | ht2
        · exact ⟨priceFixture, rfl⟩
        · rcases List.mem_cons.mp ht2 with rfl | h3
          · exact ⟨[], rfl⟩
          · cases h3)
      (by
        simp only [List.map_cons, List.map_nil, List.chain_cons, List.Chain.nil]
        norm_num)).1,
   (watermark_monotone_atomic.2.2 ⟨fun _ => 0⟩ [] .price
      [(5, .ok priceFixture), (7, .ok [])]
      (by
        intro t ht
        rcases List.mem_cons.mp ht with rfl | ht2
        · exact ⟨priceFixture, rfl⟩
        · rcases List.mem_cons.mp ht2 with rfl | h3
          · exact ⟨[], rfl⟩
          · cases h3)
      (by
        simp only [List.map_cons, List.map_nil, List.chain_cons, List.Chain.nil]
        norm_num)).2 (7, .ok []) rfl,
   watermark_monotone_atomic.2.1 ⟨fun _ => 0⟩ [] .price 9 .fetchError⟩

namespace Core

theorem compareDay_empty_unfold (rows : List WeatherRow) (region : String)
    (dayStart : Int) (h : forecastRowsFor rows region dayStart = []) :
    compareDay rows region dayStart = .noForecastData := by
  unfold compareDay
  rw [h]
  rfl

theorem compareDay_ok_unfold (rows : List WeatherRow) (region : String)
    (dayStart : Int) (h : forecastRowsFor rows region dayStart ≠ []) :
    compareDay rows region dayStart =
      .ok (pairsFor rows region dayStart)
        ((pairsFor rows region dayStart).any fun p => p.actual == none)
        (maeFor rows region dayStart) := by
  have hem : (forecastRowsFor rows region dayStart).isEmpty = false := by
    simpa [List.isEmpty_iff] using h
  simp only [compareDay, hem, Bool.false_eq_true, if_false]
  rfl

end Core

/-- C6: the reconciler reports the no-forecast-data state exactly when
zero forecast rows target the region's local calendar day, and both the
no-forecast and the partial state are values of the structured result
type, never exceptions. -/
theorem noForecastData_iff (rows : List Core.WeatherRow) (region : String)
    (dayStart : Int) :
    (Core.compareDay rows region dayStart = .noForecastData ↔
      Core.forecastRowsFor rows region dayStart = []) ∧
    ((∃ pairs isPartial mae,
        Core.compareDay rows region dayStart = .ok pairs isPartial mae) ↔
      Core.forecastRowsFor rows region dayStart ≠ []) := by
  rcases eq_or_ne (Core.forecastRowsFor rows region dayStart) [] with hfc | hfc
  · have hres := Core.compareDay_empty_unfold rows region dayStart hfc
    refine ⟨by simp [hres, hfc], ?_, fun h => absurd hfc h⟩
    rintro ⟨pairs, p, m, hok⟩
    rw [hres] at hok
    cases hok
  · have hres := Core.compareDay_ok_unfold rows region dayStart hfc
    refine ⟨⟨fun hnd => ?_, fun h => absurd h hfc⟩, by simp [hres, hfc]⟩
    rw [hnd] at hres
    cases hres

/-- Witness: C6's theorem applied to an empty store and to the weather
fixture. -/
theorem noForecastData_iff_witness :
    Core.compareDay [] "R" 0 = .noForecastData ∧
    (∃ pairs isPartial mae,
      Core.compareDay weatherFixture "R" 0 = .ok pairs isPartial mae) :=
  ⟨(noForecastData_iff [] "R" 0).1.mpr rfl,
   (noForecastData_iff weatherFixture "R" 0).2.mpr (by decide)⟩

namespace Core

theorem filter_mem_length_eq {α β : Type} [DecidableEq β] (l : List α)
    (g : α → β) (t : List β)
    (hnodup : (l.map g).Nodup) (htnodup : t.Nodup)
    (hsub : ∀ x ∈ t, x ∈ l.map g) :
    (l.filter fun a => decide (g a ∈ t)).length = t.length := by
  have h1 : List.filter (fun b => decide (b ∈ t)) (l.map g) =
      (l.filter fun a => decide (g a ∈ t)).map g := by
    rw [List.filter_map]
    rfl
  have h2 : (List.filter (fun b => decide (b ∈ t)) (l.map g)).Perm t := by
    rw [List.perm_ext_iff_of_nodup (hnodup.filter _) htnodup]
    intro x
    rw [List.mem_filter]
    simp only [decide_eq_true_eq]
    exact ⟨fun h => h.2, fun h => ⟨hsub x h, h⟩⟩
  have h3 := h2.length_eq
  rw [h1, List.length_map] at h3
  exact h3

theorem exists_unmatched {α β : Type} [DecidableEq β] (l : List α)
    (g : α → β) (t : List β) (hnodup : (l.map g).Nodup)
    (hlt : t.length < l.length) :
    ∃ a ∈ l, g a ∉ t := by
  by_contra hno
  push_neg at hno
  have hsubset : (l.map g) ⊆ t := by
    intro x hx
    rcases List.mem_map.mp hx with ⟨a, ha, rfl⟩
    exact hno a ha
  have hle := (hnodup.subperm hsubset).length_le
  rw [List.length_map] at hle
  omega

end Core

/-- C5: with forecast rows covering 24 distinct hours of the region's day
and actual rows covering exactly 18 of those hours, the reconciler returns
a partial result whose 24 reported hours contain exactly 18 matched pairs,
computes the mean absolute error over those 18 matched hours only, and
reports every unmatched forecast hour with a null actual. -/
theorem compare_partial_coverage (rows : List Core.WeatherRow)
    (region : String) (dayStart : Int)
    (hfcLen : (Core.forecastRowsFor rows region dayStart).length = 24)
    (hfcNodup : ((Core.forecastRowsFor rows region dayStart).map
      fun r => Core.floorTo r.ts 60).Nodup)
    (hacLen : (Core.actualRowsFor rows region dayStart).length = 18)
    (hacNodup : ((Core.actualRowsFor rows region dayStart).map
      fun r => Core.floorTo r.ts 60).Nodup)
    (hsub : ∀ h ∈ (Core.actualRowsFor rows region dayStart).map
        fun r => Core.floorTo r.ts 60,
      h ∈ (Core.forecastRowsFor rows region dayStart).map
        fun r => Core.floorTo r.ts 60) :
    Core.compareDay rows region dayStart =
      .ok (Core.pairsFor rows region dayStart) true
        (Core.maeFor rows region dayStart) ∧
    (Core.pairsFor rows region dayStart).length = 24 ∧
    ((Core.pairsFor rows region dayStart).filter fun p =>
      p.actual.isSome).length = 18 ∧
    Core.maeFor rows region dayStart =
      (((Core.pairsFor rows region dayStart).filter fun p =>
        p.actual.isSome).map fun p => |p.forecast - p.actual.getD 0|).sum / 18 ∧
    ∀ f ∈ Core.forecastRowsFor rows region dayStart,
      Core.floorTo f.ts 60 ∉ ((Core.actualRowsFor rows region dayStart).map
        fun r => Core.floorTo r.ts 60) →
      ({ hour := Core.floorTo f.ts 60, forecast := f.temp, actual := none } :
        Core.HourPair) ∈ Core.pairsFor rows region dayStart := by
  have hfcne : Core.forecastRowsFor rows region dayStart ≠ [] := by
    intro h
    rw [h] at hfcLen
    simp at hfcLen
  have hfindnone : ∀ f : Core.WeatherRow,
      Core.floorTo f.ts 60 ∉ ((Core.actualRowsFor rows region dayStart).map
        fun r => Core.floorTo r.ts 60) →
      ((Core.actualRowsFor rows region dayStart).find? fun a =>
        Core.floorTo a.ts 60 == Core.floorTo f.ts 60) = none := by
    intro f hnot
    rw [List.find?_eq_none]
    intro a ha hbeq
    exact hnot (List.mem_map.mpr ⟨a, ha, by simpa using hbeq⟩)
  have hfindsome : ∀ f : Core.WeatherRow,
      Core.floorTo f.ts 60 ∈ ((Core.actualRowsFor rows region dayStart).map
        fun r => Core.floorTo r.ts 60) →
      (((Core.actualRowsFor rows region dayStart).find? fun a =>
        Core.floorTo a.ts 60 == Core.floorTo f.ts 60).isSome) = true := by
    intro f hmem
    rcases List.mem_map.mp hmem with ⟨a, ha, haf⟩
    rw [List.find?_isSome]
    exact ⟨a, ha, by simpa using haf⟩
  have hcount : ((Core.pairsFor rows region dayStart).filter fun p =>
      p.actual.isSome).length = 18 := by
    unfold Core.pairsFor
    rw [← List.countP_eq_length_filter, List.countP_map]
    rw [List.countP_congr (q := fun f => decide (Core.floorTo f.ts 60 ∈
      (Core.actualRowsFor rows region dayStart).map
        fun r => Core.floorTo r.ts 60)) ?_]
    · rw [List.countP_eq_length_filter]
      rw [Core.filter_mem_length_eq _ _ _ hfcNodup hacNodup hsub]
      rw [List.length_map, hacLen]
    · intro f hf
      simp only [Function.comp, decide_eq_true_eq]
      constructor
      · intro hsome
        by_contra hnot
        rw [hfindnone f hnot] at hsome
        simp at hsome
      · intro hmem
        cases hfind : ((Core.actualRowsFor rows region dayStart).find? fun a =>
            Core.floorTo a.ts 60 == Core.floorTo f.ts 60) with
        | none =>
          have hs := hfindsome f hmem
          rw [hfind] at hs
          simp at hs
        | some a => simp [hfind]
  have hpartial : ((Core.pairsFor rows region dayStart).any fun p =>
      p.actual == none) = true := by
    obtain ⟨f, hf, hnot⟩ := Core.exists_unmatched
      (Core.forecastRowsFor rows region dayStart)
      (fun r => Core.floorTo r.ts 60)
      ((Core.actualRowsFor rows region dayStart).map
        fun r => Core.floorTo r.ts 60)
      hfcNodup (by rw [List.length_map, hacLen, hfcLen]; omega)
    rw [List.any_eq_true]
    refine ⟨_, List.mem_map.mpr ⟨f, hf, rfl⟩, ?_⟩
    simp only [hfindnone f hnot, Option.map_none']
    rfl
  refine ⟨?_, ?_, hcount, ?_, ?_⟩
  · rw [Core.compareDay_ok_unfold rows region dayStart hfcne, hpartial]
  · unfold Core.pairsFor
    rw [List.length_map, hfcLen]
  · unfold Core.maeFor
    rw [hcount]
    norm_num
  · intro f hf hnot
    unfold Core.pairsFor
    refine List.mem_map.mpr ⟨f, hf, ?_⟩
    rw [hfindnone f hnot]
    rfl

/-- Witness: C5's theorem applied to the 24-forecast/18-actual weather
fixture. -/
theorem compare_partial_coverage_witness :
    Core.compareDay weatherFixture "R" 0 =
      .ok (Core.pairsFor weatherFixture "R" 0) true
        (Core.maeFor weatherFixture "R" 0) ∧
    (Core.pairsFor weatherFixture "R" 0).length = 24 ∧
    ((Core.pairsFor weatherFixture "R" 0).filter fun p =>
      p.actual.isSome).length = 18 ∧
    Core.maeFor weatherFixture "R" 0 =
      (((Core.pairsFor weatherFixture "R" 0).filter fun p =>
        p.actual.isSome).map fun p => |p.forecast - p.actual.getD 0|).sum / 18 ∧
    ∀ f ∈ Core.forecastRowsFor weatherFixture "R" 0,
      Core.floorTo f.ts 60 ∉ ((Core.actualRowsFor weatherFixture "R" 0).map
        fun r => Core.floorTo r.ts 60) →
      ({ hour := Core.floorTo f.ts 60, forecast := f.temp, actual := none } :
        Core.HourPair) ∈ Core.pairsFor weatherFixture "R" 0 :=
  compare_partial_coverage weatherFixture "R" 0 (by decide) (by decide)
    (by decide) (by decide) (by decide)

/-- Counterexample for C9: for an empty data prop, ZonalDataChart and
InterfaceFlowChart render fixed hard-coded sample rows — constants, not
series built with Math.random(). -/
theorem zonal_interface_samples_hardcoded :
    Frontend.zonalDataChartSampleData [] =
      [ { zone_name := "ZONE_A", load_mw := 18500, price := 42.75, renewable_percentage := 12 }
      , { zone_name := "ZONE_B", load_mw := 12300, price := 38.50, renewable_percentage := 28 }
      , { zone_name := "ZONE_C", load_mw := 9800, price := 45.20, renewable_percentage := 8 }
      , { zone_name := "ZONE_D", load_mw := 15200, price := 40.10, renewable_percentage := 18 }
      , { zone_name := "ZONE_E", load_mw := 7500, price := 36.80, renewable_percentage := 35 }
      , { zone_name := "ZONE_F", load_mw := 5200, price := 39.90, renewable_percentage := 22 } ] ∧
    Frontend.interfaceFlowSampleData [] 0 =
      [ { from_zone := "ZONE_A", to_zone := "ZONE_B", flow_mw := 1200, timestamp := 0 }
      , { from_zone := "ZONE_A", to_zone := "ZONE_C", flow_mw := 800, timestamp := 0 }
      , { from_zone := "ZONE_B", to_zone := "ZONE_D", flow_mw := 500, timestamp := 0 }
      , { from_zone := "ZONE_C", to_zone := "ZONE_A", flow_mw := -350, timestamp := 0 }
      , { from_zone := "ZONE_D", to_zone := "ZONE_A", flow_mw := -600, timestamp := 0 }
      , { from_zone := "ZONE_D", to_zone := "ZONE_C", flow_mw := 250, timestamp := 0 } ] :=
  ⟨rfl, rfl⟩

/-- C9 (amended): every chart substitutes fabricated sample data when the
data prop is empty — PriceChart, LoadChart, WeatherDataChart and
LoadVsPriceChart build it with Math.random() draws (so their rendering is
not a deterministic function of the stored data), while ZonalDataChart and
InterfaceFlowChart substitute fixed hard-coded rows — non-empty data is
passed through unchanged, and on a fetch error useWeatherData replaces
both current weather and forecast with Math.random()-generated mock data,
recording the substitution only in useMockData = true. -/
theorem charts_fabricate_sample_data :
    Frontend.priceChartSampleData [] 0 (fun _ => 0) ≠
      Frontend.priceChartSampleData [] 0 (fun _ => 1) ∧
    Frontend.loadChartSampleData [] 0 (fun _ => 0) ≠
      Frontend.loadChartSampleData [] 0 (fun _ => 1) ∧
    Frontend.loadVsPriceSampleData [] 0 (fun _ => 0) ≠
      Frontend.loadVsPriceSampleData [] 0 (fun _ => 1) ∧
    Frontend.weatherChartSampleData [] [] [] 0 (fun _ => 0) (fun _ => 0) ≠
      Frontend.weatherChartSampleData [] [] [] 0 (fun _ => 1) (fun _ => 0) ∧
    (∀ p d today rand,
      Frontend.priceChartSampleData (p :: d) today rand = p :: d) ∧
    (∀ p d today rand,
      Frontend.loadChartSampleData (p :: d) today rand = p :: d) ∧
    (∀ p d today rand,
      Frontend.loadVsPriceSampleData (p :: d) today rand = p :: d) ∧
    (∀ p d, Frontend.zonalDataChartSampleData (p :: d) = p :: d) ∧
    (∀ p d now, Frontend.interfaceFlowSampleData (p :: d) now = p :: d) ∧
    (∀ now, Frontend.interfaceFlowSampleData [] now =
      [ { from_zone := "ZONE_A", to_zone := "ZONE_B", flow_mw := 1200, timestamp := now }
      , { from_zone := "ZONE_A", to_zone := "ZONE_C", flow_mw := 800, timestamp := now }
      , { from_zone := "ZONE_B", to_zone := "ZONE_D", flow_mw := 500, timestamp := now }
      , { from_zone := "ZONE_C", to_zone := "ZONE_A", flow_mw := -350, timestamp := now }
      , { from_zone := "ZONE_D", to_zone := "ZONE_A", flow_mw := -600, timestamp := now }
      , { from_zone := "ZONE_D", to_zone := "ZONE_C", flow_mw := 250, timestamp := now } ]) ∧
    (∀ zone e prev nowTs nowHour rand,
      Frontend.fetchDataModel zone (.error e) prev nowTs nowHour rand =
        { currentWeather := some (Frontend.generateMockData
            (zone.getD "nyiso_nyc") nowTs nowHour rand).1
          forecastData := (Frontend.generateMockData
            (zone.getD "nyiso_nyc") nowTs nowHour rand).2
          useMockData := true }) ∧
    (∀ zone cur fc prev nowTs nowHour rand,
      (Frontend.fetchDataModel zone (.ok (cur, fc)) prev nowTs nowHour
        rand).useMockData = false) ∧
    Frontend.generateMockData "nyiso_nyc" 0 0 (fun _ => 0) ≠
      Frontend.generateMockData "nyiso_nyc" 0 0 (fun _ => 1) := by
  refine ⟨by with_unfolding_all decide, by with_unfolding_all decide,
    by with_unfolding_all decide, by with_unfolding_all decide,
    ?_, ?_, ?_, ?_, ?_, ?_, ?_, ?_, by with_unfolding_all decide⟩
  · intro p d today rand
    simp [Frontend.priceChartSampleData]
  · intro p d today rand
    simp [Frontend.loadChartSampleData]
  · intro p d today rand
    simp [Frontend.loadVsPriceSampleData]
  · intro p d
    simp [Frontend.zonalDataChartSampleData]
  · intro p d now
    simp [Frontend.interfaceFlowSampleData]
  · intro now
    simp [Frontend.interfaceFlowSampleData]
  · intro zone e prev nowTs nowHour rand
    rfl
  · intro zone cur fc prev nowTs nowHour rand
    rfl

namespace Frontend

theorem foldl_add_generation (l : List FuelMixEntry) (a : ℚ) :
    l.foldl (fun acc f => acc + f.generation) a =
      a + (l.map (·.generation)).sum := by
  induction l generalizing a with
  | nil => simp
  | cons x xs ih => simp [ih, add_assoc]

theorem totalMW_eq_sum (l : List FuelMixEntry) :
    totalMW l = (l.map (·.generation)).sum := by
  unfold totalMW
  rw [foldl_add_generation]
  simp

end Frontend

/-- C10: the dashboard FuelMixChart keeps exactly the value at the last
timestamp key of each non-empty per-fuel-type series, sorts the kept
entries by generation descending, and its displayed total generation is
the sum of exactly those latest values. -/
theorem fuelmix_latest_sorted_total
    (series : List (String × List (String × ℚ))) :
    List.Perm (Frontend.processFuelMixData series)
      (Frontend.latestEntries series) ∧
    (Frontend.processFuelMixData series).Pairwise
      (fun a b => b.generation ≤ a.generation) ∧
    Frontend.totalMW (Frontend.processFuelMixData series) =
      ((Frontend.latestEntries series).map (·.generation)).sum := by
  have hperm : List.Perm (Frontend.processFuelMixData series)
      (Frontend.latestEntries series) := Core.sortOrd_perm _ _
  refine ⟨hperm, ?_, ?_⟩
  · have h := Core.sortOrd_pairwise
      (fun a b : Frontend.FuelMixEntry => decide (b.generation < a.generation))
      (fun x y hxy => by
        simp only [decide_eq_true_eq] at hxy
        simp only [decide_eq_false_iff_not]
        linarith)
      (fun x y z hyz hxy => by
        simp only [decide_eq_false_iff_not] at hyz hxy ⊢
        linarith)
      (Frontend.latestEntries series)
    exact h.imp fun hab => by
      simp only [decide_eq_false_iff_not] at hab
      linarith
  · rw [Frontend.totalMW_eq_sum]
    exact (hperm.map (·.generation)).sum_eq

/-- Witness: C9's amended theorem instantiated at concrete inputs — a
non-empty data prop is passed through unchanged and a failed fetch flips
useMockData. -/
theorem charts_fabricate_sample_data_witness :
    Frontend.priceChartSampleData
        [{ timestamp := 0, price := 10, zone := "Z" }] 0 (fun _ => 0) =
      [{ timestamp := 0, price := 10, zone := "Z" }] ∧
    (Frontend.fetchDataModel none (.error .network)
      { currentWeather := none, forecastData := [], useMockData := false }
      0 0 (fun _ => 0)).useMockData = true :=
  ⟨charts_fabricate_sample_data.2.2.2.2.1
      { timestamp := 0, price := 10, zone := "Z" } [] 0 (fun _ => 0),
   by
    rw [charts_fabricate_sample_data.2.2.2.2.2.2.2.2.2.2.1 none .network
      { currentWeather := none, forecastData := [], useMockData := false }
      0 0 (fun _ => 0)]⟩

/-- Witness: C10's theorem instantiated at a concrete two-series response
with one empty series. -/
theorem fuelmix_latest_sorted_total_witness :
    List.Perm
      (Frontend.processFuelMixData
        [("NG", [("t1", 100), ("t2", 200)]), ("SUN", []), ("COL", [("t1", 300)])])
      (Frontend.latestEntries
        [("NG", [("t1", 100), ("t2", 200)]), ("SUN", []), ("COL", [("t1", 300)])]) ∧
    (Frontend.processFuelMixData
      [("NG", [("t1", 100), ("t2", 200)]), ("SUN", []), ("COL", [("t1", 300)])]).Pairwise
      (fun a b => b.generation ≤ a.generation) ∧
    Frontend.totalMW (Frontend.processFuelMixData
      [("NG", [("t1", 100), ("t2", 200)]), ("SUN", []), ("COL", [("t1", 300)])]) =
      ((Frontend.latestEntries
        [("NG", [("t1", 100), ("t2", 200)]), ("SUN", []), ("COL", [("t1", 300)])]).map
          (·.generation)).sum :=
  fuelmix_latest_sorted_total
    [("NG", [("t1", 100), ("t2", 200)]), ("SUN", []), ("COL", [("t1", 300)])]
